import Mathlib

/-!
Verification development for the agent-soul session-lifecycle hooks.

The TypeScript sources are shallowly embedded as Lean functions:

* `parseSessionFilename` / `buildSessionFilename` / `buildRenamedFilename`
  embed the filename codec of `lib/session-manager.ts`.
* `isTemplate`, `createSessionTemplate`, `slugifyTitle`,
  `renameSessionFromTitle` embed the template classifier, the template
  builder, the slug pipeline and the auto-rename of `lib/session-manager.ts`.
* `findSessionInfo` embeds `findSession`'s directory scan (mtime/size
  metadata, which the scanned claims never touch, is omitted).
* `periodicCheck` embeds the counter-based stop hook (`suggest-compact.ts`,
  the variant reading `tool-count-<uuid>`); `legacyPeriodicCheck` embeds the
  transcript-scanning variant of the same hook (the one computing
  `nextMilestone = (floor(lastNotified/50)+1)*50` and an offset file).
* `ensureWorkspaceSetup` embeds `lib/bootstrap.ts` over an explicit
  filesystem model that records which writes were attempted.
* `appendToSession` embeds the append primitive over a file map.

File contents that hold decimal counters are modelled as naturals: the hooks
only ever write `String(n)` for a natural `n`, and read them back with
`parseInt(..., 10) || 0`.  JavaScript regexes are embedded as executable
character-list scanners; each embedding notes the backtracking analysis that
justifies it.  Filesystem errors are modelled explicitly where a claim
depends on them (a write-failure set for the bootstrap, a malformed-JSON
state for the compaction flag file).
-/

namespace AgentSoul

/-! ### Character classes and fixed-shape patterns

`CC` is a single-character class of the JavaScript regexes used by the
sources: `\d`, the hex class `[a-f0-9]`, or a literal character.
`shapeMatch` matches a fixed-length pattern against exactly the given
characters. -/

inductive CC where
  | digit : CC
  | hex : CC
  | lit : Char → CC
deriving DecidableEq

/-- `[a-f0-9]`, the character class of the UUID segments. -/
def hexDigit (c : Char) : Bool :=
  c.isDigit || ('a' ≤ c && c ≤ 'f')

def ccMatch : CC → Char → Bool
  | .digit, c => c.isDigit
  | .hex, c => hexDigit c
  | .lit a, c => a == c

def shapeMatch : List CC → List Char → Bool
  | [], [] => true
  | p :: ps, c :: cs => ccMatch p c && shapeMatch ps cs
  | _, _ => false

theorem shapeMatch_length : ∀ {ps : List CC} {cs : List Char},
    shapeMatch ps cs = true → cs.length = ps.length := by
  intro ps
  induction ps with
  | nil => intro cs h; cases cs with
    | nil => rfl
    | cons c cs => simp [shapeMatch] at h
  | cons p ps ih =>
    intro cs h
    cases cs with
    | nil => simp [shapeMatch] at h
    | cons c cs =>
      simp only [shapeMatch, Bool.and_eq_true] at h
      simp [ih h.2]

/-- `\d{4}-\d{2}-\d{2}`, the date prefix of a session filename. -/
def datePattern : List CC :=
  [.digit, .digit, .digit, .digit, .lit '-', .digit, .digit, .lit '-', .digit, .digit]

/-- `[a-f0-9]{8}-[a-f0-9]{4}-[a-f0-9]{4}-[a-f0-9]{4}-[a-f0-9]{12}`,
the canonical UUID shape. -/
def uuidPattern : List CC :=
  List.replicate 8 CC.hex ++ [CC.lit '-'] ++ List.replicate 4 CC.hex ++ [CC.lit '-'] ++
    List.replicate 4 CC.hex ++ [CC.lit '-'] ++ List.replicate 4 CC.hex ++ [CC.lit '-'] ++
    List.replicate 12 CC.hex

/-! ### Session filename codec

Source regex (`lib/session-manager.ts`):

  `^(\d{4}-\d{2}-\d{2})-(.+)-(<uuid shape>)\.tmp$`

Both anchors are fixed-width except the greedy `(.+)`.  Group 3 is
immediately followed by `\.tmp$`, so in any successful match group 3 is
exactly the 36 characters ending 4 before the end; group 1 is exactly the
first 10 characters; the two separating `-` are at fixed positions; and
group 2 is whatever stands between them - at least one character, none of
which may be a newline (`.` without the `s` flag).  The executable
embedding below checks precisely these forced components. -/

def parseFilenameL (cs : List Char) : Option (List Char × List Char × List Char) :=
  let n := cs.length
  if n < 53 then none
  else
    let dateCs := cs.take 10
    let slugCs := (cs.drop 11).take (n - 52)
    let uuidCs := (cs.drop (n - 40)).take 36
    if shapeMatch datePattern dateCs
        && ((cs.drop 10).take 1 == ['-'])
        && slugCs.all (fun c => !(c == '\n'))
        && ((cs.drop (n - 41)).take 1 == ['-'])
        && shapeMatch uuidPattern uuidCs
        && (cs.drop (n - 4) == ['.', 't', 'm', 'p'])
    then some (dateCs, slugCs, uuidCs)
    else none

/-- `parseSessionFilename` of `lib/session-manager.ts`. -/
def parseSessionFilename (f : String) : Option (String × String × String) :=
  (parseFilenameL f.data).map fun t => (String.mk t.1, String.mk t.2.1, String.mk t.2.2)

/-- `buildSessionFilename` of `lib/session-manager.ts`:
`` `${date}-session-${sessionId}.tmp` ``. -/
def buildSessionFilename (date sessionId : String) : String :=
  date ++ "-session-" ++ sessionId ++ ".tmp"

/-- The filename built at the rename site of `renameSessionFromTitle`:
`` `${session.date}-${slug}-${session.uuid}.tmp` ``. -/
def buildRenamedFilename (date slug uuid : String) : String :=
  date ++ "-" ++ slug ++ "-" ++ uuid ++ ".tmp"

theorem buildSessionFilename_eq (date sessionId : String) :
    buildSessionFilename date sessionId = buildRenamedFilename date "session" sessionId := by
  apply String.ext
  simp only [buildSessionFilename, buildRenamedFilename, String.data_append, List.append_assoc]
  rfl

/-- The slug alphabet of claim C3: lowercase letters, digits, hyphens. -/
def slugAlpha (c : Char) : Bool :=
  ('a' ≤ c && c ≤ 'z') || c.isDigit || c == '-'

theorem slugAlpha_ne_newline {c : Char} (h : slugAlpha c = true) : (c == '\n') = false := by
  by_cases hc : c = '\n'
  · subst hc; simp [slugAlpha] at h
  · simp [hc]

theorem datePattern_length : datePattern.length = 10 := by decide

theorem uuidPattern_length : uuidPattern.length = 36 := by decide

theorem parseFilenameL_build (d s u : List Char)
    (hd : shapeMatch datePattern d = true)
    (hs1 : s ≠ []) (hs2 : s.all slugAlpha = true)
    (hu : shapeMatch uuidPattern u = true) :
    parseFilenameL (d ++ '-' :: (s ++ '-' :: (u ++ ['.', 't', 'm', 'p']))) = some (d, s, u) := by
  have hdlen : d.length = 10 := by
    rw [shapeMatch_length hd, datePattern_length]
  have hulen : u.length = 36 := by
    rw [shapeMatch_length hu, uuidPattern_length]
  have hslen : 1 ≤ s.length := List.length_pos.mpr hs1
  set cs : List Char := d ++ '-' :: (s ++ '-' :: (u ++ ['.', 't', 'm', 'p'])) with hcs
  have hn : cs.length = s.length + 52 := by
    simp [hcs, List.length_append, hdlen, hulen]; omega
  have h1 : cs.take 10 = d := List.take_left' hdlen
  have h2 : cs.drop 10 = '-' :: (s ++ '-' :: (u ++ ['.', 't', 'm', 'p'])) :=
    List.drop_left' hdlen
  have h3 : cs.drop 11 = s ++ '-' :: (u ++ ['.', 't', 'm', 'p']) := by
    have : cs.drop 11 = (cs.drop 10).drop 1 := by
      rw [List.drop_drop]
    rw [this, h2]; rfl
  have h4 : (cs.drop 11).take (s.length) = s := by
    rw [h3]; exact List.take_left' rfl
  have h5 : cs.drop (11 + s.length) = '-' :: (u ++ ['.', 't', 'm', 'p']) := by
    have : cs.drop (11 + s.length) = (cs.drop 11).drop s.length := by
      rw [List.drop_drop, Nat.add_comm]
    rw [this, h3]
    exact List.drop_left' rfl
  have h6 : cs.drop (12 + s.length) = u ++ ['.', 't', 'm', 'p'] := by
    have : cs.drop (12 + s.length) = (cs.drop (11 + s.length)).drop 1 := by
      rw [List.drop_drop]; congr 1; omega
    rw [this, h5]; rfl
  have h7 : (cs.drop (12 + s.length)).take 36 = u := by
    rw [h6]; exact List.take_left' hulen
  have h8 : cs.drop (48 + s.length) = ['.', 't', 'm', 'p'] := by
    have : cs.drop (48 + s.length) = (cs.drop (12 + s.length)).drop 36 := by
      rw [List.drop_drop]; congr 1; omega
    rw [this, h6]
    exact List.drop_left' hulen
  have hsnl : s.all (fun c => !(c == '\n')) = true := by
    rw [List.all_eq_true] at hs2 ⊢
    intro c hc
    simp [slugAlpha_ne_newline (hs2 c hc)]
  rw [parseFilenameL]
  simp only [hn]
  rw [if_neg (by omega)]
  rw [show s.length + 52 - 52 = s.length from by omega,
    show s.length + 52 - 41 = 11 + s.length from by omega,
    show s.length + 52 - 40 = 12 + s.length from by omega,
    show s.length + 52 - 4 = 48 + s.length from by omega]
  rw [h1, h2, h4, h5, h7, h8]
  rw [if_pos]
  simp only [Bool.and_eq_true]
  refine ⟨⟨⟨⟨⟨hd, ?_⟩, hsnl⟩, ?_⟩, hu⟩, ?_⟩ <;> rfl

/-- C3.  For every date of shape `YYYY-MM-DD`, every non-empty slug over
`[a-z0-9-]` (embedded hyphens allowed), and every canonical lowercase
hyphenated UUID, parsing the built filename `<date>-<slug>-<uuid>.tmp`
recovers exactly the same `(date, titleSlug, uuid)` triple. -/
theorem parse_build_roundtrip (date slug uuid : String)
    (hd : shapeMatch datePattern date.data = true)
    (hs1 : slug.data ≠ []) (hs2 : slug.data.all slugAlpha = true)
    (hu : shapeMatch uuidPattern uuid.data = true) :
    parseSessionFilename (buildRenamedFilename date slug uuid) = some (date, slug, uuid) := by
  have hdata : (buildRenamedFilename date slug uuid).data =
      date.data ++ '-' :: (slug.data ++ '-' :: (uuid.data ++ ['.', 't', 'm', 'p'])) := by
    simp only [buildRenamedFilename, String.data_append, List.append_assoc]
    rfl
  rw [parseSessionFilename, hdata, parseFilenameL_build date.data slug.data uuid.data hd hs1 hs2 hu]
  rfl

/-- Witness for C3 at a concrete filename with a hyphenated slug. -/
theorem parse_build_roundtrip_witness :
    parseSessionFilename
        (buildRenamedFilename "2025-01-15" "fix-session-start-hook" "aaaabbbb-1111-2222-3333-cccccccc0123") =
      some ("2025-01-15", "fix-session-start-hook", "aaaabbbb-1111-2222-3333-cccccccc0123") :=
  parse_build_roundtrip "2025-01-15" "fix-session-start-hook" "aaaabbbb-1111-2222-3333-cccccccc0123"
    (by decide) (by decide) (by decide) (by decide)

/-! ### Template classifier (`isTemplate` of `lib/session-manager.ts`)

The classifier runs four regex/substring checks over the session content:

1. `content.match(/\*\*\d{2}:\d{2}\*\*/g)` - more than one bolded `HH:MM`
   log stamp means the session was used.  A JavaScript global match scans
   left to right and continues after each (9-character) match;
   `countTimestamps` reproduces that non-overlapping count with a skip
   counter so that it stays structurally recursive.
2. `content.includes('- [x]')`.
3. `/\*\*Started:\*\* (\d{2}:\d{2})/` and
   `/\*\*Last Updated:\*\* (\d{2}:\d{2})/` - the regexes have no anchors,
   so the engine tries every start position and returns the first full
   match; `scanGroup` reproduces that and returns the captured group.
4. `content.includes('[One line: what you are working on right now]')`. -/

/-- `\*\*\d{2}:\d{2}\*\*`, the bolded log-stamp shape (9 characters). -/
def tsPattern : List CC :=
  [.lit '*', .lit '*', .digit, .digit, .lit ':', .digit, .digit, .lit '*', .lit '*']

/-- Non-overlapping global count of `tsPattern` matches.  The first
argument is the number of characters still covered by the previous match
(a JavaScript global regex resumes after the matched text). -/
def countTimestampsAux : Nat → List Char → Nat
  | _ + 1, [] => 0
  | 0, [] => 0
  | k + 1, _ :: cs => countTimestampsAux k cs
  | 0, c :: cs =>
    if shapeMatch tsPattern ((c :: cs).take 9) then 1 + countTimestampsAux 8 cs
    else countTimestampsAux 0 cs

def countTimestamps (l : List Char) : Nat := countTimestampsAux 0 l

/-- First match of the unanchored pattern `pre` followed by the captured
group shape `grp`; returns the captured characters.  Scans start positions
left to right exactly like the JavaScript engine. -/
def scanGroup (pre grp : List CC) : List Char → Option (List Char)
  | [] => if shapeMatch (pre ++ grp) [] then some [] else none
  | c :: cs =>
    if shapeMatch (pre ++ grp) ((c :: cs).take (pre.length + grp.length))
    then some (((c :: cs).drop pre.length).take grp.length)
    else scanGroup pre grp cs

def litPattern (s : String) : List CC := s.data.map CC.lit

/-- `(\d{2}:\d{2})`, the captured time group. -/
def timeGroup : List CC := [.digit, .digit, .lit ':', .digit, .digit]

/-- Captured group of `/\*\*Started:\*\* (\d{2}:\d{2})/`. -/
def startedTime (l : List Char) : Option (List Char) :=
  scanGroup (litPattern "**Started:** ") timeGroup l

/-- Captured group of `/\*\*Last Updated:\*\* (\d{2}:\d{2})/`. -/
def updatedTime (l : List Char) : Option (List Char) :=
  scanGroup (litPattern "**Last Updated:** ") timeGroup l

/-- Does `needle` occur at the start of `l`? -/
def startsWithL : List Char → List Char → Bool
  | [], _ => true
  | _ :: _, [] => false
  | p :: ps, c :: cs => p == c && startsWithL ps cs

/-- JavaScript `haystack.includes(needle)`: substring occurrence. -/
def containsL (needle : List Char) : List Char → Bool
  | [] => startsWithL needle []
  | c :: cs => startsWithL needle (c :: cs) || containsL needle cs

def checkedMarker : List Char := "- [x]".data

def placeholderLine : List Char := "[One line: what you are working on right now]".data

/-- The third check of `isTemplate`: a Started/Last-Updated pair exists and
the two captured times differ. -/
def startedUpdatedDiffer (l : List Char) : Bool :=
  match startedTime l, updatedTime l with
  | some s, some u => !(s == u)
  | _, _ => false

/-- `isTemplate` of `lib/session-manager.ts`. -/
def isTemplate (content : String) : Bool :=
  let l := content.data
  if 1 < countTimestamps l then false
  else if containsL checkedMarker l then false
  else if startedUpdatedDiffer l then false
  else containsL placeholderLine l

/-- `createSessionTemplate` of `lib/session-manager.ts` (the starter
markdown body, with the four interpolations). -/
def createSessionTemplate (sessionId date time jsonlPath : String) : String :=
  "# Session: [Set title once task is clear]\n**Date:** " ++ date ++
  "\n**Started:** " ++ time ++
  "\n**Last Updated:** " ++ time ++
  "\n**Session ID:** " ++ sessionId ++
  "\n**Transcript:** " ++ jsonlPath ++
  "\n\n---\n\n## Runtime Guidelines\n- Update this file at meaningful milestones (decision, blocker, context shift, completed milestone), not every small step.\n- Keep updates concise and outcome-focused; remove or update entries that become outdated.\n\n## Current State\n[One line: what you are working on right now]\n\n### Completed\n[3-5 bullet outcomes, not every step]\n-\n\n### In Progress\n-\n\n### Blockers\n-\n\n### Notes for Next Session\n[Key decisions, gotchas, and context the next session needs]\n-\n\n### Context to Load\n```\n[files or directories to reference]\n```\n\n---\n\n## Session Log\n[Major milestones only, not every action]\n\n**" ++ time ++ "** - Session started\n"

theorem startedUpdatedDiffer_eq_false_iff (l : List Char) :
    startedUpdatedDiffer l = false ↔
      (match startedTime l, updatedTime l with
       | some s, some u => s = u
       | _, _ => True) := by
  rcases hs : startedTime l with _ | st <;> rcases hu : updatedTime l with _ | ut <;>
    simp [startedUpdatedDiffer, hs, hu]

set_option maxRecDepth 100000 in
/-- C4.  `isTemplate` returns true iff all four conditions hold: fewer than
two bolded `HH:MM` log stamps, no `- [x]` marker, no differing
Started/Last-Updated pair, and the current-focus placeholder still present
verbatim; and appending a second `**HH:MM**` log entry to a freshly created
template makes it return false. -/
theorem isTemplate_iff :
    (∀ content : String,
      isTemplate content = true ↔
        (countTimestamps content.data ≤ 1
          ∧ containsL checkedMarker content.data = false
          ∧ (match startedTime content.data, updatedTime content.data with
             | some s, some u => s = u
             | _, _ => True)
          ∧ containsL placeholderLine content.data = true))
    ∧ isTemplate (createSessionTemplate "aaaabbbb-1111-2222-3333-cccccccc0123"
          "2025-01-15" "09:00" "/w/agent-transcripts/x/x.jsonl"
        ++ "\n**09:30** - Investigated the regression\n") = false := by
  constructor
  · intro content
    by_cases h1 : 1 < countTimestamps content.data
    · have hfalse : isTemplate content = false := by simp [isTemplate, h1]
      rw [hfalse]
      simp only [Bool.false_eq_true, false_iff]
      rintro ⟨hc, -, -, -⟩
      omega
    · by_cases h2 : containsL checkedMarker content.data = true
      · have hfalse : isTemplate content = false := by simp [isTemplate, h1, h2]
        rw [hfalse]
        simp only [Bool.false_eq_true, false_iff]
        rintro ⟨-, hc, -, -⟩
        simp [h2] at hc
      · by_cases h3 : startedUpdatedDiffer content.data = true
        · have hfalse : isTemplate content = false := by simp [isTemplate, h1, h2, h3]
          rw [hfalse]
          simp only [Bool.false_eq_true, false_iff]
          rintro ⟨-, -, hc, -⟩
          rw [← startedUpdatedDiffer_eq_false_iff] at hc
          rw [h3] at hc
          cases hc
        · have heq : isTemplate content = containsL placeholderLine content.data := by
            simp [isTemplate, h1, h2, h3]
          rw [heq]
          constructor
          · intro h4
            exact ⟨by omega, by simpa using h2,
              (startedUpdatedDiffer_eq_false_iff content.data).mp (by simpa using h3), h4⟩
          · rintro ⟨-, -, -, h4⟩
            exact h4
  · decide

/-! ### Title extraction, slugify and auto-rename

`parseSessionMetadata` extracts the title with the multiline regex
`/^#\s+Session:\s*(.+)$/m`.  Because `^` (with the `m` flag) only matches
at the start of a line, the leftmost match is found by attempting the
pattern at each line start from the top.  At a given line start the match
is deterministic except for the `\s*(.+)$` tail:

* `#` must be the first character;
* `\s+` must end exactly at the first non-whitespace character (the next
  literal is the non-whitespace `S` of `Session:`), so it consumes the
  maximal whitespace run, which must be non-empty;
* `Session:` must follow immediately;
* for `\s*(.+)$` the engine first lets the greedy `\s*` consume the whole
  following whitespace run: if a character follows the run it is
  non-whitespace (so not a newline) and `(.+)` captures from there to the
  end of the line.  If the run reaches the end of the input, the engine
  backtracks `\s*` one character at a time, so the capture becomes the
  last non-newline character of the run (everything after it is
  newlines); if the run is all newlines the attempt fails.

`\s` is JavaScript's whitespace class; the embedding covers its ASCII
members plus NBSP and BOM (other Unicode space separators do not occur in
the artifacts this system writes). -/

def jsWs (c : Char) : Bool :=
  c == ' ' || c == '\t' || c == '\n' || c == '\r' || c == '\x0b' || c == '\x0c' ||
    c == ' ' || c == '﻿'

/-- JavaScript `String.prototype.trim` over the modelled whitespace class. -/
def trimWs (l : List Char) : List Char :=
  ((l.dropWhile jsWs).reverse.dropWhile jsWs).reverse

/-- Strip an exact literal from the front, returning the rest. -/
def stripL : List Char → List Char → Option (List Char)
  | [], l => some l
  | _ :: _, [] => none
  | p :: ps, c :: cs => if p == c then stripL ps cs else none

/-- Attempt `#\s+Session:\s*(.+)$` at one line start; returns the raw
captured group. -/
def tryTitleLine (l : List Char) : Option (List Char) :=
  match l with
  | '#' :: rest =>
    let ws := rest.takeWhile jsWs
    let r2 := rest.dropWhile jsWs
    if ws.isEmpty then none
    else
      match stripL "Session:".data r2 with
      | none => none
      | some tail =>
        let run := tail.takeWhile jsWs
        let after := tail.dropWhile jsWs
        match after with
        | _ :: _ => some (after.takeWhile (fun x => !(x == '\n')))
        | [] =>
          match (run.reverse.dropWhile (fun x => x == '\n')).head? with
          | some c => some [c]
          | none => none
  | _ => none

/-- Scan all line starts from the top for the first title match.  The flag
records whether the current position is a line start. -/
def extractTitleAux : Bool → List Char → Option (List Char)
  | _, [] => none
  | atStart, c :: cs =>
    match (if atStart then tryTitleLine (c :: cs) else none) with
    | some g => some g
    | none => extractTitleAux (c == '\n') cs

/-- `parseSessionMetadata(content).title`: the captured group, trimmed
(`titleMatch[1].trim()`); `none` when the regex does not match. -/
def metaTitle (content : List Char) : Option (List Char) :=
  (extractTitleAux true content).map trimWs

/-- Replace every whitespace run by a single `-`
(`.replace(/\s+/g, '-')`).  The flag records whether the previous
character was part of a run already replaced. -/
def collapseWsAux : Bool → List Char → List Char
  | _, [] => []
  | inRun, c :: cs =>
    if jsWs c then
      if inRun then collapseWsAux true cs else '-' :: collapseWsAux true cs
    else c :: collapseWsAux false cs

/-- Collapse every run of dashes to a single `-` (the second `.replace`
of `slugifyTitle`). -/
def collapseDashAux : Bool → List Char → List Char
  | _, [] => []
  | inRun, c :: cs =>
    if c == '-' then
      if inRun then collapseDashAux true cs else '-' :: collapseDashAux true cs
    else c :: collapseDashAux false cs

/-- `.replace(/^-|-$/g, '')`, applied to a string whose dash runs are
already collapsed: drop one leading and one trailing dash. -/
def dropLeadDash : List Char → List Char
  | '-' :: r => r
  | l => l

def dropTrailDash (l : List Char) : List Char :=
  (dropLeadDash l.reverse).reverse

/-- The character class kept by `.replace(/[^a-z0-9\s-]/g, '')`. -/
def slugKeep (c : Char) : Bool :=
  ('a' ≤ c && c ≤ 'z') || c.isDigit || jsWs c || c == '-'

/-- `slugifyTitle` of `lib/session-manager.ts`: lowercase, strip characters
outside `[a-z0-9\s-]`, whitespace runs to single dashes, collapse dash
runs, trim one leading/trailing dash, truncate to 60.  (`toLowerCase` is
modelled on ASCII via `Char.toLower`.) -/
def slugifyTitle (t : List Char) : List Char :=
  ((dropTrailDash (dropLeadDash
      (collapseDashAux false (collapseWsAux false
        ((t.map Char.toLower).filter slugKeep))))).take 60)

/-- The fields of `SessionInfo` the rename logic touches (`path` is
`dir/filename`; `mtime`/`size` never change under rename and are
omitted). -/
structure SessionInfo where
  dir : String
  filename : String
  date : String
  titleSlug : String
  uuid : String
deriving DecidableEq

/-- `SESSION_TITLE_PLACEHOLDERS` of `lib/session-manager.ts`. -/
def titlePlaceholders : List (List Char) :=
  ["[Set title once task is clear]".data, "[Add meaningful title here]".data]

/-- `renameSessionFromTitle` of `lib/session-manager.ts`.  `renameOk`
models whether the filesystem `fs.rename` succeeds (the code swallows a
rename failure and returns `null`). -/
def renameSessionFromTitle (renameOk : Bool) (s : SessionInfo) (content : List Char) :
    Option SessionInfo :=
  match (metaTitle content).map trimWs with
  | none => none
  | some t =>
    if t.isEmpty || titlePlaceholders.contains t then none
    else
      let slug := slugifyTitle t
      if slug.isEmpty || slug == s.titleSlug.data then none
      else
        if renameOk then
          some { s with
            filename := buildRenamedFilename s.date (String.mk slug) s.uuid,
            titleSlug := String.mk slug }
        else none

/-- C6.  `renameSessionFromTitle` is a no-op (returns `null`, nothing
renamed) exactly when the extracted title is missing, empty, a recognized
placeholder, slugifies to nothing, slugifies to the current slug, or the
rename fails; otherwise the file is renamed to
`<date>-<newSlug>-<uuid>.tmp` with the record's date and UUID unchanged
and `newSlug = slugifyTitle title` (lowercase, strip outside `[a-z0-9 -]`,
whitespace to single hyphens, collapse and trim hyphens, truncate 60). -/
theorem renameSessionFromTitle_eq (renameOk : Bool) (s : SessionInfo) (content : List Char) :
    renameSessionFromTitle renameOk s content =
      match (metaTitle content).map trimWs with
      | none => none
      | some t =>
        if t = [] ∨ t ∈ titlePlaceholders ∨ slugifyTitle t = [] ∨
            slugifyTitle t = s.titleSlug.data ∨ renameOk = false
        then none
        else some { s with
          filename := buildRenamedFilename s.date (String.mk (slugifyTitle t)) s.uuid,
          titleSlug := String.mk (slugifyTitle t) } := by
  rw [renameSessionFromTitle]
  rcases hm : (metaTitle content).map trimWs with _ | t
  · rfl
  · by_cases h1 : t = []
    · subst h1
      simp [titlePlaceholders, slugifyTitle, collapseWsAux, collapseDashAux,
        dropLeadDash, dropTrailDash]
    · by_cases h2 : t ∈ titlePlaceholders
      · simp [List.isEmpty_iff, h1, h2]
      · by_cases h3 : slugifyTitle t = []
        · simp [List.isEmpty_iff, h1, h2, h3]
        · by_cases h4 : slugifyTitle t = s.titleSlug.data
          · simp [List.isEmpty_iff, h1, h2, h3, h4]
          · rcases renameOk with _ | _ <;>
              simp [List.isEmpty_iff, h1, h2, h3, h4]

/-! ### Directory scan (`findSession` of `lib/session-manager.ts`)

`findSession` iterates the directory listing in order, skips entries not
ending in `.tmp` or not containing the query UUID, parses the rest and
returns the first whose parsed UUID equals the query (the `stat` metadata
it also gathers plays no role in the scanned claims). -/

def endsWithL (needle l : List Char) : Bool := startsWithL needle.reverse l.reverse

def sessionMatches (uuid : String) (f : String) : Bool :=
  endsWithL ".tmp".data f.data && containsL uuid.data f.data &&
    (match parseSessionFilename f with
     | some (_, _, u) => u == uuid
     | none => false)

/-- `findSession`: returns `(filename, date, titleSlug, uuid)` of the first
matching directory entry. -/
def findSessionInfo (files : List String) (uuid : String) :
    Option (String × String × String × String) :=
  match files with
  | [] => none
  | f :: fs =>
    if sessionMatches uuid f then
      match parseSessionFilename f with
      | some (d, s, u) => some (f, d, s, u)
      | none => none
    else findSessionInfo fs uuid

theorem findSessionInfo_eq_none (files : List String) (uuid : String)
    (h : ∀ f ∈ files, ∀ d s, parseSessionFilename f ≠ some (d, s, uuid)) :
    findSessionInfo files uuid = none := by
  induction files with
  | nil => rfl
  | cons f fs ih =>
    have hf : sessionMatches uuid f = false := by
      rcases hp : parseSessionFilename f with _ | t
      · simp [sessionMatches, hp]
      · obtain ⟨d, s, u⟩ := t
        have hne : u ≠ uuid := by
          intro he
          exact h f (by simp) d s (by rw [hp, he])
        simp [sessionMatches, hp, hne]
    rw [findSessionInfo, hf]
    simp only [Bool.false_eq_true, if_false]
    exact ih fun f hf => h f (List.mem_cons_of_mem _ hf)

/-! ### The periodic-check (stop) hook

Two variants exist in the repository.  `periodicCheck` embeds the
counter-based `suggest-compact.ts`: tool calls are read from the
`tool-count-<uuid>` file and a milestone fires when
`toolCallCount >= lastNotifiedCount + 50`.  `legacyPeriodicCheck` embeds
the transcript-scanning variant: the raw count is the number of
`[Tool call]` markers in the transcript text, an offset file is
subtracted (`Math.max(0, raw - offset)`, which is truncated subtraction
on naturals), and a milestone fires when the effective count reaches the
next multiple of 50 above `lastNotifiedCount`, i.e.
`(floor(lastNotified/50)+1)*50`.

In both variants the compaction flag file, when present, is consumed
first: its JSON payload is read (`flag = some (some m)` models a valid
payload with `messages_to_compact = m`; `flag = some none` models a
present-but-malformed file whose JSON parse throws), the flag is deleted,
counters are reset, a log line is appended when the session record
resolves, and the hook prints the compaction follow-up and exits.  On a
parse exception the `catch` block deletes the flag and execution falls
through to the milestone evaluation below the `if`.

Counter files are modelled by their numeric value (`none` = file absent,
read back as 0).  `appends` accumulates the `(path, text)` append calls
made against existing session files. -/

structure CheckState where
  /-- `cursor-compacted-<uuid>`: `none` absent; `some none` present but
  malformed JSON; `some (some m)` valid with `messages_to_compact = m`. -/
  flag : Option (Option Nat)
  /-- `tool-count-<uuid>` (0 when absent or unparseable). -/
  toolCount : Nat
  /-- `cursor-last-notified-<uuid>` (`none` = file absent). -/
  lastNotified : Option Nat
  /-- Directory listing of the sessions directory. -/
  files : List String
  /-- Log of appends performed against session files. -/
  appends : List (String × String)
deriving DecidableEq

def compactLogEntry (time : String) (m : Nat) : String :=
  "\n**" ++ time ++ "** - Context compacted (" ++ Nat.repr m ++
    " messages summarized, tool count reset)\n"

def compactMessage (m : Nat) : String :=
  "[Compact Hook] " ++ Nat.repr m ++
    " messages summarized. Read the session file for context. If critical details are missing, check the full transcript."

def firstUpdateMessage : String :=
  "[Compact Hook, First Update]: Read the template and update with current progress. Update memory if relevant."

def progressMessage (c : Nat) : String :=
  "[Compact Hook, " ++ Nat.repr c ++
    " tool calls]: Update session file with current progress. Update memory if relevant."

/-- Milestone evaluation of the counter-based variant (everything below
the compaction block of `suggest-compact.ts`). -/
def milestoneEval (uuid : String) (st : CheckState) : Option String × CheckState :=
  let toolCallCount := st.toolCount
  let lastNotifiedCallCount := st.lastNotified.getD 0
  if toolCallCount < lastNotifiedCallCount + 50 then (none, st)
  else
    match findSessionInfo st.files uuid with
    | none => (none, st)
    | some (_, _, slug, _) =>
      let milestoneNum := toolCallCount / 50
      let msg :=
        if milestoneNum == 1 && slug == "session" then firstUpdateMessage
        else progressMessage toolCallCount
      (some msg, { st with lastNotified := some toolCallCount })

/-- State after the successful compaction branch: flag deleted, counter
file zeroed, last-notified zeroed, and the log line appended when the
session record resolves (fields: flag, toolCount, lastNotified, files,
appends). -/
def compactedState (uuid time : String) (m : Nat) (st : CheckState) : CheckState :=
  match findSessionInfo st.files uuid with
  | some (f, _, _, _) => ⟨none, 0, some 0, st.files, st.appends ++ [(f, compactLogEntry time m)]⟩
  | none => ⟨none, 0, some 0, st.files, st.appends⟩

/-- One invocation of the counter-based stop hook (`suggest-compact.ts`).
Returns the optional `followup_message` and the resulting filesystem
state.  `transcriptOk` models a truthy `transcript_path`. -/
def periodicCheck (loopCount : Nat) (transcriptOk : Bool) (uuid time : String)
    (st : CheckState) : Option String × CheckState :=
  if loopCount > 0 || !transcriptOk then (none, st)
  else
    match st.flag with
    | some (some m) =>
      (some (compactMessage m), compactedState uuid time m st)
    | some none =>
      milestoneEval uuid { st with flag := none }
    | none => milestoneEval uuid st

/-! The state of the legacy transcript-scanning variant. -/

structure LegacyState where
  flag : Option (Option Nat)
  /-- Number of `[Tool call]` markers in the transcript text file. -/
  rawCount : Nat
  /-- `cursor-tool-offset-<uuid>` (`none` = file absent). -/
  offset : Option Nat
  lastNotified : Option Nat
  files : List String
  appends : List (String × String)
deriving DecidableEq

/-- Milestone evaluation of the legacy variant: fires when the effective
count reaches `(floor(lastNotified/50)+1)*50`. -/
def legacyMilestoneEval (uuid : String) (st : LegacyState) : Option String × LegacyState :=
  let effectiveToolCount := st.rawCount - st.offset.getD 0
  let lastNotifiedCallCount := st.lastNotified.getD 0
  let nextMilestone := (lastNotifiedCallCount / 50 + 1) * 50
  if effectiveToolCount < nextMilestone then (none, st)
  else
    match findSessionInfo st.files uuid with
    | none => (none, st)
    | some (_, _, slug, _) =>
      let milestoneNum := effectiveToolCount / 50
      let msg :=
        if milestoneNum == 1 && slug == "session" then firstUpdateMessage
        else progressMessage effectiveToolCount
      (some msg, { st with lastNotified := some effectiveToolCount })

/-- Legacy compaction branch: flag deleted, offset set to the raw
transcript-derived count (so the effective count becomes 0), last-notified
zeroed, log line appended when the session resolves (fields: flag,
rawCount, offset, lastNotified, files, appends). -/
def legacyCompactedState (uuid time : String) (m : Nat) (st : LegacyState) : LegacyState :=
  match findSessionInfo st.files uuid with
  | some (f, _, _, _) =>
    ⟨none, st.rawCount, some st.rawCount, some 0, st.files,
      st.appends ++ [(f, compactLogEntry time m)]⟩
  | none => ⟨none, st.rawCount, some st.rawCount, some 0, st.files, st.appends⟩

/-- One invocation of the legacy transcript-scanning stop hook. -/
def legacyPeriodicCheck (loopCount : Nat) (transcriptOk : Bool) (uuid time : String)
    (st : LegacyState) : Option String × LegacyState :=
  if loopCount > 0 || !transcriptOk then (none, st)
  else
    match st.flag with
    | some (some m) =>
      (some (compactMessage m), legacyCompactedState uuid time m st)
    | some none =>
      legacyMilestoneEval uuid { st with flag := none }
    | none => legacyMilestoneEval uuid st

/-! ### Hook-event traces

`count-tool.ts` increments the counter file on every tool call;
`pre-compact.ts` overwrites the flag file with a fresh valid payload; the
stop hook runs `periodicCheck`.  A session's filesystem history is a fold
of these events. -/

inductive HookEv where
  | toolCall : HookEv
  | preCompact : Nat → HookEv
  | check : String → HookEv

def hookStep (uuid : String) (st : CheckState) : HookEv → CheckState
  | .toolCall => { st with toolCount := st.toolCount + 1 }
  | .preCompact m => { st with flag := some (some m) }
  | .check time => (periodicCheck 0 true uuid time st).2

def runHooks (uuid : String) (st : CheckState) (es : List HookEv) : CheckState :=
  es.foldl (hookStep uuid) st

/-! ### Fixtures for concrete runs -/

def u0 : String := "aaaabbbb-1111-2222-3333-cccccccc0123"

def f0 : String := "2025-01-15-session-aaaabbbb-1111-2222-3333-cccccccc0123.tmp"

theorem milestoneEval_flag (uuid : String) (st : CheckState) :
    (milestoneEval uuid st).2.flag = st.flag := by
  rw [milestoneEval]
  by_cases h : st.toolCount < st.lastNotified.getD 0 + 50
  · rw [if_pos h]
  · rw [if_neg h]
    rcases hf : findSessionInfo st.files uuid with _ | ⟨f, d, sl, u⟩ <;> rfl

theorem milestoneEval_lastNotified (uuid : String) (st : CheckState) :
    (milestoneEval uuid st).2.lastNotified = st.lastNotified
    ∨ ((milestoneEval uuid st).2.lastNotified = some st.toolCount
        ∧ st.lastNotified.getD 0 + 50 ≤ st.toolCount) := by
  rw [milestoneEval]
  by_cases h : st.toolCount < st.lastNotified.getD 0 + 50
  · rw [if_pos h]; exact Or.inl rfl
  · rw [if_neg h]
    rcases hf : findSessionInfo st.files uuid with _ | ⟨f, d, sl, u⟩
    · exact Or.inl rfl
    · exact Or.inr ⟨rfl, by omega⟩

theorem compactedState_spec (uuid time : String) (m : Nat) (st : CheckState) :
    (compactedState uuid time m st).flag = none
    ∧ (compactedState uuid time m st).toolCount = 0
    ∧ (compactedState uuid time m st).lastNotified = some 0
    ∧ (compactedState uuid time m st).files = st.files
    ∧ (compactedState uuid time m st).appends =
        st.appends ++ (match findSessionInfo st.files uuid with
          | some (f, _, _, _) => [(f, compactLogEntry time m)]
          | none => []) := by
  rw [compactedState]
  rcases hf : findSessionInfo st.files uuid with _ | ⟨f, d, sl, u⟩ <;>
    exact ⟨rfl, rfl, rfl, rfl, by simp⟩

/-- C1 (amended, counter-based checker): with no compaction flag pending
and a resolvable session record, the counter-based periodic check emits a
milestone notification iff `toolCallCount >= lastNotifiedCount + 50`, and
upon firing stores `lastNotifiedCount := toolCallCount` itself (not a
milestone boundary). -/
theorem milestone_fires_iff (uuid time : String) (st : CheckState)
    (info : String × String × String × String)
    (hflag : st.flag = none)
    (hsess : findSessionInfo st.files uuid = some info) :
    (((periodicCheck 0 true uuid time st).1 ≠ none) ↔
      st.lastNotified.getD 0 + 50 ≤ st.toolCount)
    ∧ (st.lastNotified.getD 0 + 50 ≤ st.toolCount →
        (periodicCheck 0 true uuid time st).2.lastNotified = some st.toolCount) := by
  obtain ⟨f, d, sl, u⟩ := info
  have hpc : periodicCheck 0 true uuid time st = milestoneEval uuid st := by
    rw [periodicCheck, hflag]; rfl
  rw [hpc, milestoneEval]
  by_cases h : st.toolCount < st.lastNotified.getD 0 + 50
  · rw [if_pos h]
    refine ⟨⟨fun hc => (hc rfl).elim, fun hc => absurd hc (by omega)⟩,
      fun hc => absurd hc (by omega)⟩
  · rw [if_neg h, hsess]
    exact ⟨⟨fun _ => by omega, fun _ => by simp⟩, fun _ => rfl⟩

def wSt1 : CheckState := ⟨none, 130, some 50, [f0], []⟩

/-- Witness for C1 (amended) at the claim's own scenario point: last
notified 50, count 130 - fires and stores 130. -/
theorem milestone_fires_iff_witness :
    ((periodicCheck 0 true u0 "12:00" wSt1).1 ≠ none)
    ∧ (periodicCheck 0 true u0 "12:00" wSt1).2.lastNotified = some 130 := by
  have h := milestone_fires_iff u0 "12:00" wSt1 (f0, "2025-01-15", "session", u0)
    rfl (by decide)
  exact ⟨h.1.mpr (by decide), h.2 (by decide)⟩

def cSt1 : LegacyState := ⟨none, 150, none, some 130, [f0], []⟩

/-- Counterexample to C1 as stated: the transcript-scanning checker (the
cited code) fires at effective count 150 with `lastNotified = 130`, even
though `150 < 130 + 50`, because its firing condition is the next multiple
of 50 above `lastNotified`, not `lastNotified + 50`. -/
theorem legacy_fires_below_threshold :
    (legacyPeriodicCheck 0 true u0 "12:00" cSt1).1 = some (progressMessage 150)
    ∧ cSt1.rawCount - cSt1.offset.getD 0 < cSt1.lastNotified.getD 0 + 50 := by
  constructor
  · decide
  · decide

/-- C2.  A periodic check that finds a valid compaction flag deletes the
flag, zeroes the tool count, zeroes last-notified, appends exactly one
timestamped log line carrying the summarized-message count iff the session
record resolves, and emits the one compaction follow-up; the immediately
following periodic check (flag now absent, counters zeroed) changes
nothing. -/
theorem compaction_reset (uuid time : String) (st : CheckState) (m : Nat)
    (hflag : st.flag = some (some m)) :
    (periodicCheck 0 true uuid time st).1 = some (compactMessage m)
    ∧ (periodicCheck 0 true uuid time st).2.flag = none
    ∧ (periodicCheck 0 true uuid time st).2.toolCount = 0
    ∧ (periodicCheck 0 true uuid time st).2.lastNotified = some 0
    ∧ (periodicCheck 0 true uuid time st).2.appends =
        st.appends ++ (match findSessionInfo st.files uuid with
          | some (f, _, _, _) => [(f, compactLogEntry time m)]
          | none => [])
    ∧ periodicCheck 0 true uuid time (periodicCheck 0 true uuid time st).2 =
        (none, (periodicCheck 0 true uuid time st).2) := by
  obtain ⟨hcf, hct, hcl, -, hca⟩ := compactedState_spec uuid time m st
  have hpc : periodicCheck 0 true uuid time st =
      (some (compactMessage m), compactedState uuid time m st) := by
    rw [periodicCheck, hflag]; rfl
  rw [hpc]
  refine ⟨rfl, hcf, hct, hcl, hca, ?_⟩
  have hpc2 : periodicCheck 0 true uuid time (compactedState uuid time m st) =
      milestoneEval uuid (compactedState uuid time m st) := by
    rw [periodicCheck, hcf]; rfl
  rw [hpc2, milestoneEval, if_pos (by rw [hct, hcl]; simp)]

def cSt2 : CheckState := ⟨some (some 12), 80, some 50, [f0], []⟩

/-- Witness for C2 at a concrete state with a valid flag. -/
theorem compaction_reset_witness :
    (periodicCheck 0 true u0 "12:00" cSt2).2.toolCount = 0
    ∧ (periodicCheck 0 true u0 "12:00" cSt2).2.lastNotified = some 0
    ∧ (periodicCheck 0 true u0 "12:00" cSt2).1 = some (compactMessage 12) := by
  have h := compaction_reset u0 "12:00" cSt2 12 rfl
  exact ⟨h.2.2.1, h.2.2.2.1, h.1⟩

/-- C5 (amended): whenever the flag is present the invocation removes it -
on a successful read compaction handling is terminal and returns the
compaction follow-up; but on a read exception the catch deletes the flag
and execution falls through to milestone evaluation instead of returning
an empty result. -/
theorem compaction_flag_always_cleared (uuid time : String) (st : CheckState)
    (fc : Option Nat) (hflag : st.flag = some fc) :
    ((periodicCheck 0 true uuid time st).2.flag = none)
    ∧ (∀ m, fc = some m → (periodicCheck 0 true uuid time st).1 = some (compactMessage m))
    ∧ (fc = none → periodicCheck 0 true uuid time st = milestoneEval uuid { st with flag := none }) := by
  rcases fc with _ | m
  · have hpc : periodicCheck 0 true uuid time st = milestoneEval uuid { st with flag := none } := by
      rw [periodicCheck, hflag]; rfl
    refine ⟨?_, ?_, fun _ => hpc⟩
    · rw [hpc, milestoneEval_flag]
    · intro m hm; cases hm
  · have hpc : periodicCheck 0 true uuid time st =
        (some (compactMessage m), compactedState uuid time m st) := by
      rw [periodicCheck, hflag]; rfl
    rw [hpc]
    refine ⟨(compactedState_spec uuid time m st).1, ?_, ?_⟩
    · intro m' hm'; cases hm'; rfl
    · intro hc; cases hc

def cSt5 : CheckState := ⟨some none, 50, none, [f0], []⟩

/-- Counterexample to C5 as stated: with a present-but-malformed flag the
invocation does not return an empty result - after deleting the flag it
falls through and emits a milestone notification in the same invocation,
consuming last-notified. -/
theorem compaction_error_emits_milestone :
    (periodicCheck 0 true u0 "12:00" cSt5).1 = some firstUpdateMessage
    ∧ (periodicCheck 0 true u0 "12:00" cSt5).2.flag = none
    ∧ (periodicCheck 0 true u0 "12:00" cSt5).2.lastNotified = some 50 := by
  refine ⟨by decide, by decide, by decide⟩

def wSt5 : CheckState := ⟨some none, 0, none, [f0], []⟩

/-- Witness for C5 (amended) at a concrete malformed-flag state. -/
theorem compaction_flag_always_cleared_witness :
    (periodicCheck 0 true u0 "12:00" wSt5).2.flag = none :=
  (compaction_flag_always_cleared u0 "12:00" wSt5 none rfl).1

/-- C7 (amended): across any single hook event, the persisted
last-notified value is unchanged, or is set to the currently observed
`toolCallCount` (only when the 50-interval threshold was reached, hence
never decreasing), or is reset to 0 by consuming a valid compaction flag
during a periodic check.  In particular every value ever written is either
0 or a value observed as `toolCallCount`; monotonicity holds except across
a compaction reset. -/
theorem lastNotified_evolution (uuid : String) (st : CheckState) (e : HookEv) :
    (hookStep uuid st e).lastNotified = st.lastNotified
    ∨ ((hookStep uuid st e).lastNotified = some st.toolCount
        ∧ st.lastNotified.getD 0 + 50 ≤ st.toolCount)
    ∨ ((hookStep uuid st e).lastNotified = some 0
        ∧ (∃ m, st.flag = some (some m)) ∧ (∃ t, e = .check t)) := by
  rcases e with _ | m | t
  · exact Or.inl rfl
  · exact Or.inl rfl
  · rcases hflag : st.flag with _ | fc
    · have hstep : hookStep uuid st (.check t) = (milestoneEval uuid st).2 := by
        show (periodicCheck 0 true uuid t st).2 = _
        rw [periodicCheck, hflag]; rfl
      rw [hstep]
      exact (milestoneEval_lastNotified uuid st).imp id Or.inl
    · rcases fc with _ | m
      · have hstep : hookStep uuid st (.check t) =
            (milestoneEval uuid { st with flag := none }).2 := by
          show (periodicCheck 0 true uuid t st).2 = _
          rw [periodicCheck, hflag]; rfl
        rw [hstep]
        rcases milestoneEval_lastNotified uuid { st with flag := none } with h | ⟨h1, h2⟩
        · exact Or.inl h
        · exact Or.inr (Or.inl ⟨h1, h2⟩)
      · have hstep : hookStep uuid st (.check t) = compactedState uuid t m st := by
          show (periodicCheck 0 true uuid t st).2 = _
          rw [periodicCheck, hflag]; rfl
        rw [hstep]
        exact Or.inr (Or.inr
          ⟨(compactedState_spec uuid t m st).2.2.1, ⟨m, rfl⟩, ⟨t, rfl⟩⟩)

def st7 : CheckState := ⟨none, 0, none, [f0], []⟩

def ev7 : List HookEv :=
  List.replicate 50 .toolCall ++ [.check "10:00", .preCompact 7, .check "10:05"]

/-- Counterexample to C7 as stated: after 50 tool calls and a milestone
notification the persisted last-notified value is 50; the compaction
consumed by the next check resets it to 0, so the sequence of persisted
values 50, then 0 is not monotonically non-decreasing. -/
theorem lastNotified_decreases :
    (runHooks u0 st7 (ev7.take 51)).lastNotified = some 50
    ∧ (runHooks u0 st7 ev7).lastNotified = some 0
    ∧ ¬((50 : Nat) ≤ 0) := by
  refine ⟨by decide, by decide, by decide⟩

/-- C10.  A periodic check with no compaction flag whose milestone
threshold is crossed but whose sessions directory contains no file parsing
to the conversation's UUID emits nothing and leaves the state - in
particular the last-notified file - unchanged, deferring the notification.
-/
theorem milestone_deferred_without_session (uuid time : String) (st : CheckState)
    (hflag : st.flag = none)
    (hthresh : st.lastNotified.getD 0 + 50 ≤ st.toolCount)
    (hnosess : ∀ f ∈ st.files, ∀ d s, parseSessionFilename f ≠ some (d, s, uuid)) :
    periodicCheck 0 true uuid time st = (none, st) := by
  have hpc : periodicCheck 0 true uuid time st = milestoneEval uuid st := by
    rw [periodicCheck, hflag]; rfl
  rw [hpc, milestoneEval, if_neg (by omega), findSessionInfo_eq_none st.files uuid hnosess]

def wSt10 : CheckState := ⟨none, 50, none, [], []⟩

/-- Witness for C10 with an empty sessions directory and the threshold
crossed. -/
theorem milestone_deferred_without_session_witness :
    periodicCheck 0 true u0 "12:00" wSt10 = (none, wSt10) :=
  milestone_deferred_without_session u0 "12:00" wSt10 rfl (by decide)
    (by intro f hf; cases hf)

/-! ### `appendToSession` (`lib/session-manager.ts`)

The append primitive first checks `Bun.file(path).exists()` and returns
`false` without writing when the target does not exist; only then does it
`fs.appendFile`.  The filesystem is a list of `(path, contents)` pairs. -/

def appendToSession (files : List (String × String)) (path text : String) :
    Bool × List (String × String) :=
  if (files.find? (fun e => e.1 == path)).isSome then
    (true, files.map (fun e => if e.1 == path then (e.1, e.2 ++ text) else e))
  else (false, files)

/-- C9.  `appendToSession` returns false and performs no write - in
particular it never creates the file - whenever the target session file
does not already exist. -/
theorem appendToSession_missing (files : List (String × String)) (path text : String)
    (h : ∀ e ∈ files, e.1 ≠ path) :
    appendToSession files path text = (false, files) := by
  have hfind : files.find? (fun e => e.1 == path) = none := by
    rw [List.find?_eq_none]
    intro e he
    simp [h e he]
  rw [appendToSession, hfind]
  rfl

/-- Witness for C9: appending to a missing file in a one-file store. -/
theorem appendToSession_missing_witness :
    appendToSession [("a.tmp", "x")] "b.tmp" "y" = (false, [("a.tmp", "x")]) :=
  appendToSession_missing [("a.tmp", "x")] "b.tmp" "y" (by decide)

/-! ### `ensureWorkspaceSetup` (`lib/bootstrap.ts`)

The bootstrap resolves the workspace paths, writes the two `.keep`
directory markers, and then writes each missing starter file in order:
project-memory (`MEMORY.md`), persona (`soul/SOUL.md`), user profile
(`user/USER.md`).  None of the `await Bun.write` calls is wrapped in a
`try`, so a rejection aborts the function (the caller's `main().catch`
swallows it and emits empty context).  The filesystem model records which
paths exist, which writes fail, and the ordered list of attempted writes;
a failed write aborts with `none` instead of the resolved paths. -/

structure WorkspacePaths where
  projectDir : String
  sessionsDir : String
  memoryDir : String
  memoryFile : String
  soulFile : String
  userFile : String
deriving DecidableEq

structure BootFS where
  existing : List String
  failing : List String
  attempted : List String
deriving DecidableEq

/-- `Bun.write`: record the attempt; fail (throw) on a failing path,
otherwise the path exists afterwards. -/
def bwrite (p : String) (fs : BootFS) : Bool × BootFS :=
  if p ∈ fs.failing then (false, ⟨fs.existing, fs.failing, fs.attempted ++ [p]⟩)
  else (true, ⟨p :: fs.existing, fs.failing, fs.attempted ++ [p]⟩)

/-- Write a starter file only if missing (`if (!await exists()) await write()`). -/
def writeMissing (p : String) (fs : BootFS) : Bool × BootFS :=
  if p ∈ fs.existing then (true, fs) else bwrite p fs

def pjoin (a b : String) : String := a ++ "/" ++ b

def memoryFileOf (projectDir : String) : String :=
  pjoin (pjoin projectDir "memory") "MEMORY.md"

def soulFileOf (homeDir : String) : String :=
  pjoin (pjoin (pjoin homeDir ".cursor") "soul") "SOUL.md"

def userFileOf (homeDir : String) : String :=
  pjoin (pjoin (pjoin homeDir ".cursor") "user") "USER.md"

/-- `ensureWorkspaceSetup` of `lib/bootstrap.ts`: sequential writes with no
per-file error handling; the first throwing write aborts and the caller
receives no paths. -/
def ensureWorkspaceSetup (projectDir sessionsDir homeDir : String) (fs : BootFS) :
    Option WorkspacePaths × BootFS :=
  let memoryDir := pjoin projectDir "memory"
  let paths : WorkspacePaths :=
    ⟨projectDir, sessionsDir, memoryDir, memoryFileOf projectDir,
      soulFileOf homeDir, userFileOf homeDir⟩
  match bwrite (pjoin sessionsDir ".keep") fs with
  | (false, fs) => (none, fs)
  | (true, fs) =>
    match bwrite (pjoin memoryDir ".keep") fs with
    | (false, fs) => (none, fs)
    | (true, fs) =>
      match writeMissing (memoryFileOf projectDir) fs with
      | (false, fs) => (none, fs)
      | (true, fs) =>
        match writeMissing (soulFileOf homeDir) fs with
        | (false, fs) => (none, fs)
        | (true, fs) =>
          match writeMissing (userFileOf homeDir) fs with
          | (false, fs) => (none, fs)
          | (true, fs) => (some paths, fs)

def bootFS0 : BootFS := ⟨[], [memoryFileOf "/p"], []⟩

/-- Counterexample to C8 as stated: when the project-memory write fails,
`ensureWorkspaceSetup` aborts - the persona and user-profile writes are
never attempted (only the two `.keep` markers and the memory file appear
in the attempt log) and the caller receives no `WorkspacePaths`. -/
theorem bootstrap_aborts_on_memory_failure :
    (ensureWorkspaceSetup "/p" "/p/sessions" "/h" bootFS0).1 = none
    ∧ (ensureWorkspaceSetup "/p" "/p/sessions" "/h" bootFS0).2.attempted =
        ["/p/sessions/.keep", "/p/memory/.keep", "/p/memory/MEMORY.md"]
    ∧ soulFileOf "/h" ∉ (ensureWorkspaceSetup "/p" "/p/sessions" "/h" bootFS0).2.attempted
    ∧ userFileOf "/h" ∉ (ensureWorkspaceSetup "/p" "/p/sessions" "/h" bootFS0).2.attempted := by
  refine ⟨by decide, by decide, by decide, by decide⟩

/-- C8 (amended): a write failure for the missing project-memory starter
file aborts `ensureWorkspaceSetup` - the persona and user-profile writes
are not attempted (the attempt log gains exactly the two `.keep` markers
and the memory file) and the caller receives no resolved
`WorkspacePaths`. -/
theorem bootstrap_failure_propagates (projectDir sessionsDir homeDir : String) (fs : BootFS)
    (hk1 : pjoin sessionsDir ".keep" ∉ fs.failing)
    (hk2 : pjoin (pjoin projectDir "memory") ".keep" ∉ fs.failing)
    (hmem1 : memoryFileOf projectDir ∉ fs.existing)
    (hmem2 : memoryFileOf projectDir ≠ pjoin sessionsDir ".keep")
    (hmem3 : memoryFileOf projectDir ≠ pjoin (pjoin projectDir "memory") ".keep")
    (hfail : memoryFileOf projectDir ∈ fs.failing) :
    (ensureWorkspaceSetup projectDir sessionsDir homeDir fs).1 = none
    ∧ (ensureWorkspaceSetup projectDir sessionsDir homeDir fs).2.attempted =
        fs.attempted ++ [pjoin sessionsDir ".keep",
          pjoin (pjoin projectDir "memory") ".keep", memoryFileOf projectDir] := by
  have hw1 : bwrite (pjoin sessionsDir ".keep") fs =
      (true, ⟨pjoin sessionsDir ".keep" :: fs.existing, fs.failing,
        fs.attempted ++ [pjoin sessionsDir ".keep"]⟩) := by
    rw [bwrite, if_neg hk1]
  set fs1 : BootFS := ⟨pjoin sessionsDir ".keep" :: fs.existing, fs.failing,
    fs.attempted ++ [pjoin sessionsDir ".keep"]⟩ with hfs1
  have hw2 : bwrite (pjoin (pjoin projectDir "memory") ".keep") fs1 =
      (true, ⟨pjoin (pjoin projectDir "memory") ".keep" :: fs1.existing, fs1.failing,
        fs1.attempted ++ [pjoin (pjoin projectDir "memory") ".keep"]⟩) := by
    rw [bwrite, if_neg hk2]
  set fs2 : BootFS := ⟨pjoin (pjoin projectDir "memory") ".keep" :: fs1.existing, fs1.failing,
    fs1.attempted ++ [pjoin (pjoin projectDir "memory") ".keep"]⟩ with hfs2
  have hmem : memoryFileOf projectDir ∉ fs2.existing := by
    simp only [hfs2, hfs1, List.mem_cons]
    push_neg
    exact ⟨hmem3, hmem2, hmem1⟩
  have hw3 : writeMissing (memoryFileOf projectDir) fs2 =
      (false, ⟨fs2.existing, fs2.failing, fs2.attempted ++ [memoryFileOf projectDir]⟩) := by
    rw [writeMissing, if_neg hmem, bwrite, if_pos hfail]
  rw [ensureWorkspaceSetup]
  simp only [hw1, hw2, hw3]
  refine ⟨trivial, ?_⟩
  simp [hfs2, hfs1]

/-- Witness for C8 (amended) at the concrete aborting filesystem. -/
theorem bootstrap_failure_propagates_witness :
    (ensureWorkspaceSetup "/p" "/p/sessions" "/h" bootFS0).1 = none
    ∧ (ensureWorkspaceSetup "/p" "/p/sessions" "/h" bootFS0).2.attempted =
        bootFS0.attempted ++ ["/p/sessions/.keep", "/p/memory/.keep", "/p/memory/MEMORY.md"] := by
  have h := bootstrap_failure_propagates "/p" "/p/sessions" "/h" bootFS0
    (by decide) (by decide) (by decide) (by decide) (by decide) (by decide)
  exact ⟨h.1, by rw [h.2]; rfl⟩

end AgentSoul
